import Mathlib

/-!
Verification development for the hoardbooru bot repository.

We shallowly embed the core data model and operations of the repository:
the tag-phase state machine (`tag_phases.py`), the hidden-data codec
(`hidden_data.py`), the media identity cache (`cache.py` / `database.py`),
the upload-state classifier (`posted_state.py`), the tag-menu ordering
(`func_tagging.py`) and the inline-search fan-out (`func_inline_search.py`).
Python strings are modelled as Lean `String`s except in the hidden-data
codec, where the percent-encoding layer operates on bytes, so there a
Python string is modelled by its UTF-8 byte sequence (`List Nat`).
-/

namespace Hoardbooru

/-! ## Tag-phase state machine (`src/bot/hoardbooru_bot/tag_phases.py`)

A post's tag state is modelled as the list of primary names of its tags.
`nextPhase` embeds the `next_phase` methods of each phase class, dispatched
through the `PHASES` registry: a phase identifier not in the registry
yields `none`.
-/

/-- Tag state of a post: the list of primary names of its tags. -/
abbrev Tags := List String

/-- `next_phase` of each registered phase class, dispatched via `PHASES`.
`CommStatus`, `OurCharacters`, `OtherCharacters`, `Artist`, `WipTags`,
`MetaTags` and `UploadedTo` return constants; `MetaCommission` branches on
the tag `status:wip` and `KinkTags` branches on `status:final`. -/
def nextPhase (phase : String) (tags : Tags) : Option String :=
  match phase with
  | "comm_status" => some "our_characters"
  | "our_characters" => some "other_characters"
  | "other_characters" => some "artist"
  | "artist" => some "meta_commissions"
  | "meta_commissions" =>
      some (if tags.contains "status:wip" then "wip_tags" else "meta")
  | "wip_tags" => some "meta"
  | "meta" => some "kink"
  | "kink" =>
      some (if tags.contains "status:final" then "upload" else "done")
  | "upload" => some "done"
  | _ => none

/-- The keys of the `PHASES` registry, in declaration order. -/
def phaseKeys : List String :=
  ["comm_status", "our_characters", "other_characters", "artist",
   "meta_commissions", "wip_tags", "meta", "kink", "upload"]

/-- Repeatedly apply `nextPhase` with a fixed tag state, with fuel:
returns `true` when the terminal value `"done"` is reached within `fuel`
applications. -/
def reachesDone (fuel : Nat) (phase : String) (tags : Tags) : Bool :=
  if phase = "done" then
    true
  else
    match fuel with
    | 0 => false
    | fuel' + 1 =>
        match nextPhase phase tags with
        | none => false
        | some next => reachesDone fuel' next tags

/-- The list of phases visited by repeatedly applying `nextPhase` from a
given phase (the phase itself included), with fuel. -/
def phasePath (fuel : Nat) (phase : String) (tags : Tags) : List String :=
  match fuel with
  | 0 => [phase]
  | fuel' + 1 =>
      if phase = "done" then
        [phase]
      else
        match nextPhase phase tags with
        | none => [phase]
        | some next => phase :: phasePath fuel' next tags

end Hoardbooru

namespace Hoardbooru

set_option maxHeartbeats 2000000 in
/-- C5: from every phase identifier in the `PHASES` registry, and for every
fixed tag state, repeatedly applying `next_phase` reaches the terminal
value `"done"` within 9 steps; in particular the transition graph has no
reachable cycle. -/
theorem phase_machine_terminates (phase : String) (tags : Tags)
    (hphase : phase ∈ phaseKeys) : reachesDone 9 phase tags = true := by
  by_cases hw : "status:wip" ∈ tags <;> by_cases hf : "status:final" ∈ tags <;>
    · simp only [phaseKeys, List.mem_cons, List.not_mem_nil, or_false] at hphase
      rcases hphase with h | h | h | h | h | h | h | h | h <;> subst h <;>
        simp [reachesDone, nextPhase, hw, hf]

/-- Witness for `phase_machine_terminates` at a concrete phase and tag
state. -/
theorem phase_machine_terminates_witness :
    "comm_status" ∈ phaseKeys ∧
      reachesDone 9 "comm_status" ["status:wip"] = true := by
  refine ⟨by decide, phase_machine_terminates "comm_status" ["status:wip"] (by decide)⟩

/-- C4 counterexample: for the entry tagged `status:wip`, `next_phase`
evaluated in phase `artist` returns `meta_commissions`, not `wip_tags` as
the claim states: `Artist.next_phase` is the constant `"meta_commissions"`
and does not inspect the tag set. -/
theorem artist_next_phase_is_meta_commissions :
    nextPhase "artist" ["status:wip"] ≠ some "wip_tags" ∧
      nextPhase "artist" ["status:wip"] = some "meta_commissions" := by
  constructor <;> decide

/-- C4 (amended): `next_phase` at phase `artist` returns `meta_commissions`
for every tag set; from there, an entry tagged `status:wip` is routed to
`wip_tags` (not `meta`), while an entry tagged `status:final` (and not
`status:wip`) is routed to `meta`, and `wip_tags` never occurs on its
subsequent phase path. -/
theorem artist_phase_routing (tags : Tags) :
    nextPhase "artist" tags = some "meta_commissions" ∧
    ("status:wip" ∈ tags →
      nextPhase "meta_commissions" tags = some "wip_tags") ∧
    ("status:final" ∈ tags → "status:wip" ∉ tags →
      nextPhase "meta_commissions" tags = some "meta" ∧
      "wip_tags" ∉ phasePath 9 "artist" tags) := by
  refine ⟨rfl, fun hw => by simp [nextPhase, hw], fun hf hw => ⟨?_, ?_⟩⟩
  · simp [nextPhase, hw]
  · simp [phasePath, nextPhase, hw, hf]

/-- Witness for `artist_phase_routing` at the two concrete tag states of
the scenario. -/
theorem artist_phase_routing_witness :
    nextPhase "meta_commissions" ["status:wip"] = some "wip_tags" ∧
    (nextPhase "meta_commissions" ["status:final"] = some "meta" ∧
      "wip_tags" ∉ phasePath 9 "artist" ["status:final"]) :=
  ⟨(artist_phase_routing ["status:wip"]).2.1 (by decide),
   (artist_phase_routing ["status:final"]).2.2 (by decide) (by decide)⟩

/-! ## Upload-state classifier (`src/bot/hoardbooru_bot/posted_state.py`)

`PostUploadState` carries the flattened tag-name list of a post
(`tag_names`, all names of all tags) and the operator's namespace
(`user_infix`, here `userInfix`). The channel predicates and display
states embed the properties of the Python dataclass. -/

structure PostUploadState where
  tagNames : List String
  userInfix : String

def PostUploadState.e6_uploaded (s : PostUploadState) : Bool :=
  s.tagNames.contains "uploaded_to:e621"

def PostUploadState.e6_not_uploading (s : PostUploadState) : Bool :=
  s.tagNames.contains "uploaded_to:e621_not_posting"

def PostUploadState.e6_to_upload (s : PostUploadState) : Bool :=
  !s.e6_uploaded && !s.e6_not_uploading

def PostUploadState.e6_state (s : PostUploadState) : String :=
  if s.e6_uploaded then "Uploaded"
  else if s.e6_not_uploading then "Not uploading"
  else "To upload"

def PostUploadState.fa_uploaded (s : PostUploadState) : Bool :=
  s.tagNames.contains ("uploaded_to:" ++ s.userInfix ++ "_fa")

def PostUploadState.fa_not_uploading (s : PostUploadState) : Bool :=
  s.tagNames.contains ("uploaded_to:" ++ s.userInfix ++ "_not_posting")

def PostUploadState.fa_to_upload (s : PostUploadState) : Bool :=
  !s.fa_uploaded && !s.fa_not_uploading

def PostUploadState.fa_state (s : PostUploadState) : String :=
  if s.fa_uploaded then "Uploaded"
  else if s.fa_not_uploading then "Not uploading"
  else "To upload"

/-- C9 counterexample: a post tagged with both e621 marker tags is
classified as both uploaded and explicitly excluded at once, so exactly
one of the three completion states does not hold for it. -/
theorem upload_state_not_exclusive :
    ¬ ([PostUploadState.e6_uploaded
          ⟨["uploaded_to:e621", "uploaded_to:e621_not_posting"], "zeph"⟩,
        PostUploadState.e6_not_uploading
          ⟨["uploaded_to:e621", "uploaded_to:e621_not_posting"], "zeph"⟩,
        PostUploadState.e6_to_upload
          ⟨["uploaded_to:e621", "uploaded_to:e621_not_posting"], "zeph"⟩].count true = 1) := by
  decide

/-- C9 (amended): pending (`to_upload`) holds exactly when neither marker
tag of the channel is present, for both channels and unconditionally;
whenever the entry does not carry both marker tags of a channel at once,
exactly one of the three completion states holds for that channel (each
channel judged on its own markers); and the derived display state
prioritises `Uploaded` whenever the uploaded marker is present, so an
entry carrying both markers displays as `Uploaded`. -/
theorem upload_state_ternary (s : PostUploadState) :
    (s.e6_to_upload = true ↔
      s.e6_uploaded = false ∧ s.e6_not_uploading = false) ∧
    (s.fa_to_upload = true ↔
      s.fa_uploaded = false ∧ s.fa_not_uploading = false) ∧
    (¬(s.e6_uploaded = true ∧ s.e6_not_uploading = true) →
      [s.e6_uploaded, s.e6_not_uploading, s.e6_to_upload].count true = 1) ∧
    (¬(s.fa_uploaded = true ∧ s.fa_not_uploading = true) →
      [s.fa_uploaded, s.fa_not_uploading, s.fa_to_upload].count true = 1) ∧
    (s.e6_uploaded = true → s.e6_state = "Uploaded") ∧
    (s.fa_uploaded = true → s.fa_state = "Uploaded") := by
  unfold PostUploadState.e6_to_upload PostUploadState.fa_to_upload
    PostUploadState.e6_state PostUploadState.fa_state
  cases h1 : s.e6_uploaded <;> cases h2 : s.e6_not_uploading <;>
    cases h3 : s.fa_uploaded <;> cases h4 : s.fa_not_uploading <;>
      simp_all

/-- Witness for `upload_state_ternary` at a concrete post state carrying
both channels' uploaded markers. -/
theorem upload_state_ternary_witness :
    (PostUploadState.e6_to_upload
        ⟨["uploaded_to:e621", "uploaded_to:zeph_fa"], "zeph"⟩ = true ↔
      PostUploadState.e6_uploaded
          ⟨["uploaded_to:e621", "uploaded_to:zeph_fa"], "zeph"⟩ = false ∧
        PostUploadState.e6_not_uploading
          ⟨["uploaded_to:e621", "uploaded_to:zeph_fa"], "zeph"⟩ = false) ∧
    (PostUploadState.fa_to_upload
        ⟨["uploaded_to:e621", "uploaded_to:zeph_fa"], "zeph"⟩ = true ↔
      PostUploadState.fa_uploaded
          ⟨["uploaded_to:e621", "uploaded_to:zeph_fa"], "zeph"⟩ = false ∧
        PostUploadState.fa_not_uploading
          ⟨["uploaded_to:e621", "uploaded_to:zeph_fa"], "zeph"⟩ = false) ∧
    [PostUploadState.e6_uploaded
        ⟨["uploaded_to:e621", "uploaded_to:zeph_fa"], "zeph"⟩,
     PostUploadState.e6_not_uploading
        ⟨["uploaded_to:e621", "uploaded_to:zeph_fa"], "zeph"⟩,
     PostUploadState.e6_to_upload
        ⟨["uploaded_to:e621", "uploaded_to:zeph_fa"], "zeph"⟩].count true = 1 ∧
    [PostUploadState.fa_uploaded
        ⟨["uploaded_to:e621", "uploaded_to:zeph_fa"], "zeph"⟩,
     PostUploadState.fa_not_uploading
        ⟨["uploaded_to:e621", "uploaded_to:zeph_fa"], "zeph"⟩,
     PostUploadState.fa_to_upload
        ⟨["uploaded_to:e621", "uploaded_to:zeph_fa"], "zeph"⟩].count true = 1 ∧
    PostUploadState.e6_state
        ⟨["uploaded_to:e621", "uploaded_to:zeph_fa"], "zeph"⟩ = "Uploaded" ∧
    PostUploadState.fa_state
        ⟨["uploaded_to:e621", "uploaded_to:zeph_fa"], "zeph"⟩ = "Uploaded" := by
  obtain ⟨h1, h2, h3, h4, h5, h6⟩ :=
    upload_state_ternary ⟨["uploaded_to:e621", "uploaded_to:zeph_fa"], "zeph"⟩
  exact ⟨h1, h2, h3 (by decide), h4 (by decide), h5 (by decide), h6 (by decide)⟩

/-! ## Tag-menu candidate ordering
(`src/bot/hoardbooru_bot/func_tagging.py`, `post_tag_phase_menu`)

When ordering is allowed and the session order is `popular`, candidates
are sorted with key `(-t.popularity, t.tag_name)`; when it is
`alphabetical`, with key `t.tag_name`. Python's `sorted` is a stable
sort; we embed it with `List.mergeSort`, which is likewise stable. -/

structure TagEntry where
  tagName : String
  buttonName : String
  popularity : Nat

/-- The order induced by Python's sort key `(-t.popularity, t.tag_name)`:
higher popularity first, ties broken by ascending tag name. -/
def popKeyLe (a b : TagEntry) : Bool :=
  b.popularity < a.popularity ||
    (a.popularity == b.popularity && a.tagName ≤ b.tagName)

/-- The order induced by the sort key `t.tag_name`. -/
def nameLe (a b : TagEntry) : Bool :=
  a.tagName ≤ b.tagName

/-- The candidate-sorting step of `post_tag_phase_menu`: when ordering is
allowed, sort by the popularity key for order `popular` and by tag name
for order `alphabetical`; otherwise leave the phase's list untouched. -/
def menuSortTags (allowOrdering : Bool) (order : String)
    (tags : List TagEntry) : List TagEntry :=
  let tags1 :=
    if allowOrdering && order == "popular" then
      tags.mergeSort popKeyLe
    else tags
  if allowOrdering && order == "alphabetical" then
    tags1.mergeSort nameLe
  else tags1

theorem popKeyLe_trans (a b c : TagEntry) :
    popKeyLe a b → popKeyLe b c → popKeyLe a c := by
  simp only [popKeyLe, Bool.or_eq_true, Bool.and_eq_true, decide_eq_true_eq,
    beq_iff_eq]
  rintro (hab | ⟨hab, hab'⟩) (hbc | ⟨hbc, hbc'⟩)
  · exact Or.inl (by omega)
  · exact Or.inl (by omega)
  · exact Or.inl (by omega)
  · exact Or.inr ⟨by omega, le_trans hab' hbc'⟩

theorem popKeyLe_total (a b : TagEntry) : popKeyLe a b || popKeyLe b a := by
  simp only [popKeyLe, Bool.or_eq_true, Bool.and_eq_true, decide_eq_true_eq,
    beq_iff_eq]
  rcases Nat.lt_trichotomy a.popularity b.popularity with h | h | h
  · tauto
  · rcases le_total a.tagName b.tagName with h' | h' <;> tauto
  · tauto

/-- C8: with order `popular`, the rendered candidate list is a
permutation of the phase's candidates, pairwise sorted by the key
`(-popularity, tag_name)`: any later entry has strictly smaller
popularity or equal popularity and a lexicographically `≥` tag name —
so tags of equal popularity appear in lexicographic name order. With
order `alphabetical`, the list is pairwise sorted by tag name alone. -/
theorem tag_menu_ordering (tags : List TagEntry) :
    (menuSortTags true "popular" tags).Pairwise (fun a b =>
      b.popularity < a.popularity ∨
        (a.popularity = b.popularity ∧ a.tagName ≤ b.tagName)) ∧
    List.Perm (menuSortTags true "popular" tags) tags ∧
    (menuSortTags true "alphabetical" tags).Pairwise
      (fun a b => a.tagName ≤ b.tagName) ∧
    List.Perm (menuSortTags true "alphabetical" tags) tags := by
  have hpop : menuSortTags true "popular" tags = tags.mergeSort popKeyLe := by
    simp [menuSortTags]
  have halp : menuSortTags true "alphabetical" tags = tags.mergeSort nameLe := by
    simp [menuSortTags]
  refine ⟨?_, ?_, ?_, ?_⟩
  · rw [hpop]
    have := @List.sorted_mergeSort TagEntry popKeyLe
      (fun a b c => popKeyLe_trans a b c) popKeyLe_total tags
    refine this.imp ?_
    intro a b h
    simpa [popKeyLe, Bool.or_eq_true, Bool.and_eq_true] using h
  · rw [hpop]; exact List.mergeSort_perm tags popKeyLe
  · rw [halp]
    have := @List.sorted_mergeSort TagEntry nameLe
      (fun a b c hab hbc => by
        simp only [nameLe, decide_eq_true_eq] at *
        exact le_trans hab hbc)
      (fun a b => by
        simp only [nameLe, Bool.or_eq_true, decide_eq_true_eq]
        exact le_total a.tagName b.tagName)
      tags
    refine this.imp ?_
    intro a b h
    simpa [nameLe] using h
  · rw [halp]; exact List.mergeSort_perm tags nameLe

/-! ## Media identity cache
(`src/bot/hoardbooru_bot/cache.py`, `src/bot/hoardbooru_bot/database.py`)

The local store is modelled as a list of rows; `saveCacheEntry` embeds the
`INSERT ... ON CONFLICT(post_id, sent_as_file) DO UPDATE` upsert of
`Database.save_cache_entry`, replacing the (by unique index unique)
conflicting row or appending. `storeInCache` embeds
`TelegramMediaCache.store_in_cache`; the external effects are oracles:
`convertOk` is whether `convert_image` succeeds on the downloaded bytes
(it raises on a format it cannot decode, and `store_in_cache` does not
catch that), and `sent` is the platform file handle of the message the
chat platform returns for the single delivery performed. -/

structure CacheEntry where
  postId : Nat
  isPhoto : Bool
  mediaId : Nat
  accessHash : Int
  fileUrl : String
  mimeType : String
  cacheDate : Nat
  isThumbnail : Bool
  sentAsFile : Bool
  deriving DecidableEq

structure Post where
  id_ : Nat
  mime : String
  content : String
  deriving DecidableEq

structure SendResult where
  mediaId : Nat
  accessHash : Int
  deriving DecidableEq

/-- The `ON CONFLICT` key of the `cache_entries` table. -/
def cacheKeyMatches (r : CacheEntry) (pid : Nat) (f : Bool) : Bool :=
  r.postId == pid && r.sentAsFile == f

/-- Upsert of `Database.save_cache_entry`: replace the row conflicting on
`(post_id, sent_as_file)`, or insert. -/
def saveCacheEntry : List CacheEntry → CacheEntry → List CacheEntry
  | [], e => [e]
  | r :: rest, e =>
      if cacheKeyMatches r e.postId e.sentAsFile then e :: rest
      else r :: saveCacheEntry rest e

/-- Number of current rows under a given `(post_id, sent_as_file)` key. -/
def countKey (db : List CacheEntry) (pid : Nat) (f : Bool) : Nat :=
  db.countP fun r => cacheKeyMatches r pid f

/-- Python's `str.startswith`, evaluated on the character data. -/
def pyStartswith (s pre : String) : Bool :=
  pre.data.isPrefixOf s.data

/-- Mime types delivered as a converted photo by `store_in_cache`:
`post.mime.startswith("image") and post.mime != "image/gif"`. -/
def inlinePhotoMime (m : String) : Bool :=
  pyStartswith m "image" && !(m == "image/gif")

/-- Mime types delivered as inline video: `post.mime in ("video/mp4", "image/gif")`. -/
def inlineVideoMime (m : String) : Bool :=
  m == "video/mp4" || m == "image/gif"

/-- Whether the single delivery of `store_in_cache` ends up as a document
(`sent_as_file` in the source): no inline branch produced a message. -/
def deliveredAsFile (post : Post) (sendUncompressed : Bool) : Bool :=
  !(!sendUncompressed && inlinePhotoMime post.mime) &&
    !(!sendUncompressed && inlineVideoMime post.mime)

/-- The `CacheEntry` literal built by `store_in_cache` (its `sent_as_file`
field is passed as `False` there). -/
def mkStoredEntry (post : Post) (sendUncompressed : Bool)
    (sent : SendResult) (timeNow : Nat) : CacheEntry :=
  { postId := post.id_,
    isPhoto := !sendUncompressed && inlinePhotoMime post.mime,
    mediaId := sent.mediaId,
    accessHash := sent.accessHash,
    fileUrl := post.content,
    mimeType := post.mime,
    cacheDate := timeNow,
    isThumbnail := false,
    sentAsFile := false }

/-- `TelegramMediaCache.store_in_cache`: deliver the requested
representation once, then persist a row with `sent_as_file=False` and,
when the delivery was as a document, a second row with
`sent_as_file=True`; the returned entry is reset to `False`. Conversion
failure on the photo branch propagates as an error. -/
def storeInCache (db : List CacheEntry) (post : Post)
    (sendUncompressed : Bool) (convertOk : Bool) (sent : SendResult)
    (timeNow : Nat) : Except String (List CacheEntry × CacheEntry) :=
  if !sendUncompressed && inlinePhotoMime post.mime && !convertOk then
    Except.error "convert_image failed"
  else
    let entry := mkStoredEntry post sendUncompressed sent timeNow
    let db1 := saveCacheEntry db entry
    if deliveredAsFile post sendUncompressed then
      Except.ok (saveCacheEntry db1 { entry with sentAsFile := true }, entry)
    else
      Except.ok (db1, entry)

theorem mem_saveCacheEntry_self (e : CacheEntry) :
    ∀ db : List CacheEntry, e ∈ saveCacheEntry db e := by
  intro db
  induction db with
  | nil => simp [saveCacheEntry]
  | cons r rest ih =>
      by_cases h : cacheKeyMatches r e.postId e.sentAsFile = true <;>
        simp [saveCacheEntry, h, ih]

theorem mem_saveCacheEntry_of_not_matching (e r : CacheEntry)
    (hne : cacheKeyMatches r e.postId e.sentAsFile = false) :
    ∀ db : List CacheEntry, r ∈ db → r ∈ saveCacheEntry db e := by
  intro db
  induction db with
  | nil => simp
  | cons a rest ih =>
      intro hmem
      by_cases ha : cacheKeyMatches a e.postId e.sentAsFile = true
      · rw [saveCacheEntry, if_pos ha]
        rcases List.mem_cons.mp hmem with h | h
        · subst h; rw [hne] at ha; exact absurd ha (by simp)
        · exact List.mem_cons_of_mem _ h
      · rw [saveCacheEntry, if_neg ha]
        rcases List.mem_cons.mp hmem with h | h
        · subst h; exact List.mem_cons_self _ _
        · exact List.mem_cons_of_mem _ (ih h)

theorem countKey_cons (a : CacheEntry) (l : List CacheEntry) (pid : Nat)
    (f : Bool) :
    countKey (a :: l) pid f =
      countKey l pid f + (if cacheKeyMatches a pid f = true then 1 else 0) := by
  simp [countKey, List.countP_cons]

theorem countKey_saveCacheEntry_self (e : CacheEntry) :
    ∀ db : List CacheEntry, countKey db e.postId e.sentAsFile ≤ 1 →
      countKey (saveCacheEntry db e) e.postId e.sentAsFile = 1 := by
  have hself : cacheKeyMatches e e.postId e.sentAsFile = true := by
    simp [cacheKeyMatches]
  intro db
  induction db with
  | nil => intro _; simp [saveCacheEntry, countKey, List.countP_cons, hself]
  | cons r rest ih =>
      intro hle
      by_cases h : cacheKeyMatches r e.postId e.sentAsFile = true
      · rw [saveCacheEntry, if_pos h]
        rw [countKey_cons, h] at hle
        rw [countKey_cons, hself]
        simp at hle ⊢
        omega
      · rw [saveCacheEntry, if_neg h]
        rw [countKey_cons, if_neg h] at hle
        rw [countKey_cons, if_neg h]
        have hrec := ih (by omega)
        omega

theorem countKey_saveCacheEntry_ne (e : CacheEntry) (pid : Nat) (f : Bool)
    (hne : ¬(e.postId = pid ∧ e.sentAsFile = f)) :
    ∀ db : List CacheEntry, countKey (saveCacheEntry db e) pid f = countKey db pid f := by
  have hekey : cacheKeyMatches e pid f = false := by
    simp only [cacheKeyMatches, Bool.and_eq_false_iff, beq_eq_false_iff_ne, ne_eq]
    by_cases h1 : e.postId = pid
    · exact Or.inr fun h2 => hne ⟨h1, h2⟩
    · exact Or.inl h1
  intro db
  induction db with
  | nil => simp [saveCacheEntry, countKey, List.countP_cons, hekey]
  | cons r rest ih =>
      by_cases h : cacheKeyMatches r e.postId e.sentAsFile = true
      · have hr : cacheKeyMatches r pid f = false := by
          simp only [cacheKeyMatches, Bool.and_eq_true, beq_iff_eq] at h
          simp only [cacheKeyMatches, Bool.and_eq_false_iff,
            beq_eq_false_iff_ne, ne_eq] at hekey ⊢
          rcases hekey with h' | h'
          · exact Or.inl (h.1 ▸ h')
          · exact Or.inr (h.2 ▸ h')
        rw [saveCacheEntry, if_pos h]
        rw [countKey_cons, if_neg (by simp [hekey]), countKey_cons,
          if_neg (by simp [hr])]
      · rw [saveCacheEntry, if_neg h]
        rw [countKey_cons, countKey_cons, ih]

/-- Success shape of `storeInCache`: the returned entry is the built one
(`sent_as_file=False`), and the final store is one upsert, or two when the
delivery was as a document. -/
theorem storeInCache_ok_shape (db : List CacheEntry) (post : Post)
    (su cOk : Bool) (sent : SendResult) (t : Nat)
    (db' : List CacheEntry) (e : CacheEntry)
    (h : storeInCache db post su cOk sent t = Except.ok (db', e)) :
    e = mkStoredEntry post su sent t ∧
      ((deliveredAsFile post su = true ∧
          db' = saveCacheEntry (saveCacheEntry db e) { e with sentAsFile := true }) ∨
        (deliveredAsFile post su = false ∧ db' = saveCacheEntry db e)) := by
  unfold storeInCache at h
  split at h
  · exact absurd h (by simp)
  · split at h
    · rename_i hdel
      refine ⟨?_, Or.inl ⟨hdel, ?_⟩⟩ <;>
        · injection h with h'
          injection h' with h1 h2
          simp_all
    · rename_i hdel
      refine ⟨?_, Or.inr ⟨by simpa using hdel, ?_⟩⟩ <;>
        · injection h with h'
          injection h' with h1 h2
          simp_all

theorem deliveredAsFile_uncompressed (post : Post) :
    deliveredAsFile post true = true := by
  simp [deliveredAsFile]

/-- Effect of one successful store on row counts: the `(id, False)` key
always ends up with exactly one row; when the delivery was as a document
the `(id, True)` key does too, and otherwise the `(id, True)` key is
untouched. -/
theorem countKey_after_store (db : List CacheEntry) (post : Post)
    (su cOk : Bool) (s : SendResult) (t : Nat) (db' : List CacheEntry)
    (e : CacheEntry)
    (h : storeInCache db post su cOk s t = Except.ok (db', e)) :
    (countKey db post.id_ false ≤ 1 → countKey db' post.id_ false = 1) ∧
    (deliveredAsFile post su = true → countKey db post.id_ true ≤ 1 →
      countKey db' post.id_ true = 1) ∧
    (deliveredAsFile post su = false →
      countKey db' post.id_ true = countKey db post.id_ true) := by
  obtain ⟨he, hshape⟩ := storeInCache_ok_shape db post su cOk s t db' e h
  have hpid : e.postId = post.id_ := by rw [he]; rfl
  have hsf : e.sentAsFile = false := by rw [he]; rfl
  have hTpid : (CacheEntry.sentAsFile { e with sentAsFile := true }) = true := rfl
  rcases hshape with ⟨hdel, hdb⟩ | ⟨hdel, hdb⟩
  · subst hdb
    refine ⟨?_, ?_, ?_⟩
    · intro hwf
      have h1 : countKey (saveCacheEntry db e) post.id_ false = 1 := by
        have := countKey_saveCacheEntry_self e db (by rw [hpid, hsf]; exact hwf)
        rwa [hpid, hsf] at this
      have h2 := countKey_saveCacheEntry_ne { e with sentAsFile := true }
        post.id_ false (by simp) (saveCacheEntry db e)
      rw [h2]; exact h1
    · intro _ hwf
      have h1 : countKey (saveCacheEntry db e) post.id_ true =
          countKey db post.id_ true :=
        countKey_saveCacheEntry_ne e post.id_ true
          (fun hc => by rw [hsf] at hc; exact absurd hc.2 (by simp)) db
      have h2 := countKey_saveCacheEntry_self { e with sentAsFile := true }
        (saveCacheEntry db e) (by
          show countKey _ e.postId true ≤ 1
          rw [hpid, h1]; exact hwf)
      show countKey _ post.id_ true = 1
      rw [← hpid]
      exact h2
    · intro hdel'; rw [hdel'] at hdel; exact absurd hdel (by simp)
  · subst hdb
    refine ⟨?_, ?_, ?_⟩
    · intro hwf
      have := countKey_saveCacheEntry_self e db (by rw [hpid, hsf]; exact hwf)
      rwa [hpid, hsf] at this
    · intro hdel'; rw [hdel'] at hdel; exact absurd hdel (by simp)
    · intro _
      exact countKey_saveCacheEntry_ne e post.id_ true
        (fun hc => by rw [hsf] at hc; exact absurd hc.2 (by simp)) db

/-- Frame of one successful store that did not deliver as a document: rows
not keyed `(post.id_, False)` are carried over unchanged. -/
theorem frame_after_store (db : List CacheEntry) (post : Post)
    (su cOk : Bool) (s : SendResult) (t : Nat) (db' : List CacheEntry)
    (e : CacheEntry)
    (h : storeInCache db post su cOk s t = Except.ok (db', e))
    (hdel : deliveredAsFile post su = false) :
    ∀ r ∈ db, cacheKeyMatches r post.id_ false = false → r ∈ db' := by
  obtain ⟨he, hshape⟩ := storeInCache_ok_shape db post su cOk s t db' e h
  have hpid : e.postId = post.id_ := by rw [he]; rfl
  have hsf : e.sentAsFile = false := by rw [he]; rfl
  rcases hshape with ⟨hdel', _⟩ | ⟨_, hdb⟩
  · rw [hdel] at hdel'; exact absurd hdel' (by simp)
  · subst hdb
    intro r hr hne
    exact mem_saveCacheEntry_of_not_matching e r (by rwa [hpid, hsf]) db hr

/-- C3 counterexample: storing post 1 with `as_document=True` over a
database holding a prior `(1, False)` cache row replaces that prior row
too — `store_in_cache` first saves its entry with `sent_as_file=False`
and only then saves the `True` duplicate — so the prior `(1, not
as_document)` entry is not left untouched. -/
theorem cache_store_rewrites_other_variant :
    storeInCache [⟨1, true, 100, 5, "u", "image/png", 0, false, false⟩]
        ⟨1, "image/png", "u2"⟩ true true ⟨200, 6⟩ 1 =
      Except.ok ([⟨1, false, 200, 6, "u2", "image/png", 1, false, false⟩,
                  ⟨1, false, 200, 6, "u2", "image/png", 1, false, true⟩],
                 ⟨1, false, 200, 6, "u2", "image/png", 1, false, false⟩) ∧
    (⟨1, true, 100, 5, "u", "image/png", 0, false, false⟩ : CacheEntry) ∉
      ([⟨1, false, 200, 6, "u2", "image/png", 1, false, false⟩,
        ⟨1, false, 200, 6, "u2", "image/png", 1, false, true⟩] : List CacheEntry) := by
  exact ⟨rfl, by decide⟩

/-- C3 (amended): assuming the unique-index invariant on the stored key,
two sequential successful stores for `(id, as_document)` leave exactly one
current row keyed `(id, as_document)`; when `as_document=False` and the
delivery did not fall back to a document, prior rows keyed
`(id, True)` are untouched by both calls (carried over unchanged, with
their row count preserved); but a store requested with `as_document=True`
also rewrites the `(id, False)` row with its own freshly delivered entry. -/
theorem cache_store_idempotent_frame (db : List CacheEntry) (post : Post)
    (d cOk1 cOk2 : Bool) (s1 s2 : SendResult) (t1 t2 : Nat)
    (db1 db2 : List CacheEntry) (e1 e2 : CacheEntry)
    (hwf : countKey db post.id_ d ≤ 1)
    (h1 : storeInCache db post d cOk1 s1 t1 = Except.ok (db1, e1))
    (h2 : storeInCache db1 post d cOk2 s2 t2 = Except.ok (db2, e2)) :
    countKey db2 post.id_ d = 1 ∧
    (d = false → deliveredAsFile post false = false →
      (∀ r ∈ db, r.sentAsFile = true → r ∈ db2) ∧
      countKey db2 post.id_ true = countKey db post.id_ true) ∧
    (d = true → e1 ∈ db1 ∧ e1.sentAsFile = false) := by
  obtain ⟨c1f, c1t, c1keep⟩ := countKey_after_store db post d cOk1 s1 t1 db1 e1 h1
  obtain ⟨c2f, c2t, c2keep⟩ := countKey_after_store db1 post d cOk2 s2 t2 db2 e2 h2
  refine ⟨?_, ?_, ?_⟩
  · cases d with
    | false => exact c2f (le_of_eq (c1f hwf))
    | true =>
        have hdel : deliveredAsFile post true = true :=
          deliveredAsFile_uncompressed post
        exact c2t hdel (le_of_eq (c1t hdel hwf))
  · rintro rfl hdel
    constructor
    · intro r hr hrf
      have hne : cacheKeyMatches r post.id_ false = false := by
        simp [cacheKeyMatches, hrf]
      exact frame_after_store db1 post false cOk2 s2 t2 db2 e2 h2 hdel r
        (frame_after_store db post false cOk1 s1 t1 db1 e1 h1 hdel r hr hne) hne
    · rw [c2keep hdel, c1keep hdel]
  · rintro rfl
    obtain ⟨he, hshape⟩ := storeInCache_ok_shape db post true cOk1 s1 t1 db1 e1 h1
    have hsf : e1.sentAsFile = false := by rw [he]; rfl
    rcases hshape with ⟨_, hdb⟩ | ⟨hdel, _⟩
    · subst hdb
      refine ⟨?_, hsf⟩
      refine mem_saveCacheEntry_of_not_matching { e1 with sentAsFile := true }
        e1 ?_ _ (mem_saveCacheEntry_self e1 db)
      simp [cacheKeyMatches, hsf]
    · rw [deliveredAsFile_uncompressed post] at hdel
      exact absurd hdel (by simp)

/-- Witness for `cache_store_idempotent_frame`: two sequential
compressed-representation stores of an image post over an empty database. -/
theorem cache_store_idempotent_frame_witness :
    countKey [⟨1, true, 8, 9, "u", "image/png", 1, false, false⟩] 1 false = 1 ∧
    (false = false → deliveredAsFile ⟨1, "image/png", "u"⟩ false = false →
      (∀ r ∈ ([] : List CacheEntry), r.sentAsFile = true →
        r ∈ [⟨1, true, 8, 9, "u", "image/png", 1, false, false⟩]) ∧
      countKey [⟨1, true, 8, 9, "u", "image/png", 1, false, false⟩] 1 true =
        countKey [] 1 true) ∧
    (false = true →
      (⟨1, true, 7, 7, "u", "image/png", 0, false, false⟩ : CacheEntry) ∈
          [⟨1, true, 7, 7, "u", "image/png", 0, false, false⟩] ∧
        (⟨1, true, 7, 7, "u", "image/png", 0, false, false⟩ : CacheEntry).sentAsFile = false) :=
  cache_store_idempotent_frame [] ⟨1, "image/png", "u"⟩ false true true
    ⟨7, 7⟩ ⟨8, 9⟩ 0 1 [⟨1, true, 7, 7, "u", "image/png", 0, false, false⟩]
    [⟨1, true, 8, 9, "u", "image/png", 1, false, false⟩]
    ⟨1, true, 7, 7, "u", "image/png", 0, false, false⟩
    ⟨1, true, 8, 9, "u", "image/png", 1, false, false⟩
    (by decide) rfl rfl

/-- C7 counterexample: an asset whose mime type is an image format the
converter cannot handle (`image/svg+xml`, conversion oracle `false`),
requested with `as_document=False`, makes `store_in_cache` raise out of
`convert_image` — it does not fall back to document delivery and no cache
entry is produced at all. -/
theorem unsupported_image_store_errors :
    storeInCache [] ⟨1, "image/svg+xml", "u"⟩ false false ⟨9, 9⟩ 0 =
      Except.error "convert_image failed" := rfl

/-- C7 (amended): for every asset whose source mime type is not an image
type and not `video/mp4`, a successful store request with
`as_document=False` falls back to document delivery: the persisted
database contains the row with `delivered_as_document=True`
(`sent_as_file=True`) built from this delivery, regardless of the request
flag, and the delivery was not a photo. -/
theorem non_image_store_falls_back (db : List CacheEntry) (post : Post)
    (cOk : Bool) (s : SendResult) (t : Nat) (db' : List CacheEntry)
    (e : CacheEntry)
    (hm1 : pyStartswith post.mime "image" = false)
    (hm2 : post.mime ≠ "video/mp4")
    (h : storeInCache db post false cOk s t = Except.ok (db', e)) :
    deliveredAsFile post false = true ∧
    { e with sentAsFile := true } ∈ db' ∧
    e.isPhoto = false ∧ e.sentAsFile = false := by
  have hphoto : inlinePhotoMime post.mime = false := by
    simp [inlinePhotoMime, hm1]
  have hvid : inlineVideoMime post.mime = false := by
    have hgif : (post.mime == "image/gif") = false := by
      cases hg : post.mime == "image/gif"
      · rfl
      · exfalso
        have hq : post.mime = "image/gif" := by simpa using hg
        rw [hq] at hm1
        exact absurd hm1 (by decide)
    simp [inlineVideoMime, hgif]
    exact fun hc => absurd hc hm2
  have hdel : deliveredAsFile post false = true := by
    simp [deliveredAsFile, hphoto, hvid]
  obtain ⟨he, hshape⟩ := storeInCache_ok_shape db post false cOk s t db' e h
  have hsf : e.sentAsFile = false := by rw [he]; rfl
  have hip : e.isPhoto = false := by rw [he]; simp [mkStoredEntry, hphoto]
  rcases hshape with ⟨_, hdb⟩ | ⟨hdel', _⟩
  · subst hdb
    exact ⟨hdel, mem_saveCacheEntry_self _ _, hip, hsf⟩
  · rw [hdel] at hdel'; exact absurd hdel' (by simp)

/-- Witness for `non_image_store_falls_back` at a concrete PDF asset. -/
theorem non_image_store_falls_back_witness :
    deliveredAsFile ⟨1, "application/pdf", "u"⟩ false = true ∧
    ({ (⟨1, false, 3, 4, "u", "application/pdf", 0, false, false⟩ : CacheEntry)
        with sentAsFile := true } ∈
      [(⟨1, false, 3, 4, "u", "application/pdf", 0, false, false⟩ : CacheEntry),
       ⟨1, false, 3, 4, "u", "application/pdf", 0, false, true⟩]) ∧
    (⟨1, false, 3, 4, "u", "application/pdf", 0, false, false⟩ : CacheEntry).isPhoto = false ∧
    (⟨1, false, 3, 4, "u", "application/pdf", 0, false, false⟩ : CacheEntry).sentAsFile = false :=
  non_image_store_falls_back [] ⟨1, "application/pdf", "u"⟩ true ⟨3, 4⟩ 0
    [⟨1, false, 3, 4, "u", "application/pdf", 0, false, false⟩,
     ⟨1, false, 3, 4, "u", "application/pdf", 0, false, true⟩]
    ⟨1, false, 3, 4, "u", "application/pdf", 0, false, false⟩
    (by decide) (by decide) rfl

/-- C10: the `CacheEntry` returned by a successful `store_in_cache` always
has `sent_as_file=False` — even when the asset was actually delivered as a
document, in which case a separate `sent_as_file=True` row was persisted
to the database but the returned object is reset to `False`, so a caller
inspecting only the returned entry cannot tell that the fallback
happened. -/
theorem store_returned_entry_never_marked_file (db : List CacheEntry)
    (post : Post) (su cOk : Bool) (s : SendResult) (t : Nat)
    (db' : List CacheEntry) (e : CacheEntry)
    (h : storeInCache db post su cOk s t = Except.ok (db', e)) :
    e.sentAsFile = false ∧
    (deliveredAsFile post su = true → { e with sentAsFile := true } ∈ db') := by
  obtain ⟨he, hshape⟩ := storeInCache_ok_shape db post su cOk s t db' e h
  have hsf : e.sentAsFile = false := by rw [he]; rfl
  refine ⟨hsf, fun hdel => ?_⟩
  rcases hshape with ⟨_, hdb⟩ | ⟨hdel', _⟩
  · subst hdb
    exact mem_saveCacheEntry_self _ _
  · rw [hdel] at hdel'; exact absurd hdel' (by simp)

/-- Witness for `store_returned_entry_never_marked_file` at a concrete
document-requested store. -/
theorem store_returned_entry_never_marked_file_witness :
    (⟨2, false, 3, 4, "u", "image/png", 0, false, false⟩ : CacheEntry).sentAsFile = false ∧
    (deliveredAsFile ⟨2, "image/png", "u"⟩ true = true →
      { (⟨2, false, 3, 4, "u", "image/png", 0, false, false⟩ : CacheEntry)
          with sentAsFile := true } ∈
        [(⟨2, false, 3, 4, "u", "image/png", 0, false, false⟩ : CacheEntry),
         ⟨2, false, 3, 4, "u", "image/png", 0, false, true⟩]) :=
  store_returned_entry_never_marked_file [] ⟨2, "image/png", "u"⟩ true true
    ⟨3, 4⟩ 0
    [⟨2, false, 3, 4, "u", "image/png", 0, false, false⟩,
     ⟨2, false, 3, 4, "u", "image/png", 0, false, true⟩]
    ⟨2, false, 3, 4, "u", "image/png", 0, false, false⟩ rfl

/-! ## The next-phase button handler
(`src/bot/hoardbooru_bot/func_tagging.py`, `tag_phase_callback`, and the
`post_check` of `CommStatus` in `tag_phases.py`)

The session state decoded from the menu message is the flat map with keys
`post_id`, `tag_phase`, `page`, `order`, modelled as `MenuData`. The
handler's outcome is modelled as: the error reply sent (if any), the final
closing text (cancel/done), the menu state passed to
`post_tag_phase_menu` (if the menu was redrawn), and the post's resulting
tag state. -/

structure MenuData where
  postId : String
  tagPhase : String
  page : String
  order : String
  deriving DecidableEq

/-- `TAGGING_TAG_FORMAT = "tagging:needs_{}"`. -/
def taggingTagFormat (phase : String) : String :=
  "tagging:needs_" ++ phase

/-- `CommStatus.post_check`: raise when the post is tagged both or neither
of `status:final` / `status:wip`; otherwise drop the inapplicable
`tagging:needs_...` tag and push. Other phases' `post_check` is the
inherited no-op. -/
def commStatusPostCheck (tags : Tags) : Except String Tags :=
  let isFinal := tags.contains "status:final"
  let isWip := tags.contains "status:wip"
  if isFinal && isWip then
    Except.error "Post cannot be both final and WIP"
  else if !isFinal && !isWip then
    Except.error "Post must be at least one of final and WIP"
  else
    let tags1 :=
      if isFinal then tags.filter (fun t => !(t == taggingTagFormat "wip_tags"))
      else tags
    let tags2 :=
      if isWip then tags1.filter (fun t => !(t == taggingTagFormat "upload"))
      else tags1
    Except.ok tags2

/-- The `post_check` of the phase class registered under a phase key. -/
def phasePostCheck (phase : String) (tags : Tags) : Except String Tags :=
  if phase = "comm_status" then commStatusPostCheck tags else Except.ok tags

structure PhaseCallbackResult where
  reply : Option String
  closedText : Option String
  menu : Option MenuData
  postTags : Tags
  deriving DecidableEq

/-- `TaggingFunctionality.tag_phase_callback`: on `cancel` close the menu;
otherwise drop the `tagging:needs_<current phase>` tag; on `done` close
the menu; otherwise run the current phase's `post_check` — on a
`ValueError` the violation is replied to the operator, and the handler
then falls through to move `tag_phase` to the pressed target and reset
`page` to `"0"` in either case, redrawing the menu. -/
def tagPhaseCallback (menuData : MenuData) (postTags : Tags)
    (queryData : String) : PhaseCallbackResult :=
  if queryData = "cancel" then
    { reply := none, closedText := some "Tagging cancelled.",
      menu := none, postTags := postTags }
  else
    let tags1 := postTags.filter
      (fun t => !(t == taggingTagFormat menuData.tagPhase))
    if queryData = "done" then
      { reply := none, closedText := some "Tagging complete!",
        menu := none, postTags := tags1 }
    else
      match phasePostCheck menuData.tagPhase tags1 with
      | Except.error e =>
          { reply := some ("Cannot move to next tag phase, due to error: " ++ e),
            closedText := none,
            menu := some { menuData with tagPhase := queryData, page := "0" },
            postTags := tags1 }
      | Except.ok tags2 =>
          { reply := none, closedText := none,
            menu := some { menuData with tagPhase := queryData, page := "0" },
            postTags := tags2 }

/-- C2: at the failing input — phase `comm_status`, a post tagged neither
`status:wip` nor `status:final`, next-phase button `our_characters`, page
`"3"` — the handler replies with the `post_check` violation but still
advances the workflow: the redrawn menu carries `tag_phase =
"our_characters"` and `page = "0"` instead of staying on `comm_status`
with the page preserved, contradicting the handler's own reply text
("Cannot move to next tag phase"). -/
theorem post_check_failure_still_advances :
    tagPhaseCallback ⟨"1", "comm_status", "3", "popular"⟩
        ["tagging:needs_comm_status", "artist:somebody"] "our_characters" =
      { reply := some
          "Cannot move to next tag phase, due to error: Post must be at least one of final and WIP",
        closedText := none,
        menu := some ⟨"1", "our_characters", "0", "popular"⟩,
        postTags := ["artist:somebody"] } ∧
    (tagPhaseCallback ⟨"1", "comm_status", "3", "popular"⟩
        ["tagging:needs_comm_status", "artist:somebody"] "our_characters").menu ≠
      some ⟨"1", "comm_status", "3", "popular"⟩ := by
  exact ⟨rfl, by decide⟩

/-! ## Inline-search fan-out
(`src/bot/hoardbooru_bot/func_inline_search.py`, `inline_search`)

Each post of the fetched batch carries: its content URL (checked for the
`.webm` skip), whether a cache entry already exists for it
(`load_cache` hit), and an oracle `deliverOk` for whether its answer
coroutine (fresh `store_in_cache` delivery, or answer building from the
cached handle) succeeds. The answer coroutines are collected by one
`asyncio.gather` with no per-item exception handling, so any failure
propagates and the batch produces nothing. -/

/-- Python's `str.endswith`, evaluated on the character data. -/
def pyEndswith (s suf : String) : Bool :=
  suf.data.isSuffixOf s.data

structure InlinePost where
  id_ : Nat
  content : String
  cached : Bool
  deliverOk : Bool
  deriving DecidableEq

def MAX_INLINE_FRESH_MEDIA : Nat := 1

/-- The selection loop of `inline_search`: skip `.webm` posts, queue an
answer per post, count fresh (uncached) media and break at the cap. -/
def selectedAnswers (maxFresh : Nat) : List InlinePost → Nat → List InlinePost
  | [], _ => []
  | p :: rest, numFresh =>
      if pyEndswith p.content ".webm" then
        selectedAnswers maxFresh rest numFresh
      else if !p.cached then
        if maxFresh ≤ numFresh then []
        else p :: selectedAnswers maxFresh rest (numFresh + 1)
      else
        p :: selectedAnswers maxFresh rest numFresh

/-- `asyncio.gather` over the queued answer coroutines: the first
exception propagates and nothing is answered; otherwise all answers are
produced (modelled by their post ids). -/
def gatherAnswers (selected : List InlinePost) : Except String (List Nat) :=
  if selected.all (fun p => p.deliverOk) then
    Except.ok (selected.map (fun p => p.id_))
  else
    Except.error "delivery failed"

/-- The answers produced by `inline_search` for one fetched batch. -/
def inlineSearchAnswers (posts : List InlinePost) : Except String (List Nat) :=
  gatherAnswers (selectedAnswers MAX_INLINE_FRESH_MEDIA posts 0)

/-- C6 counterexample: a batch of two cached posts where the second one's
delivery fails produces no answers at all — the failure propagates out of
the batch `gather` and the first post's answer is not produced either,
so one bad asset does abort the whole page. -/
theorem delivery_failure_aborts_batch :
    inlineSearchAnswers
        [⟨1, "a.png", true, true⟩, ⟨2, "b.png", true, false⟩] =
      Except.error "delivery failed" := rfl

/-- Dropping a `.webm` post from a batch does not change the queued
answers: the selection loop skips it without touching the fresh-media
counter, so the posts before and after it are processed identically. -/
theorem selectedAnswers_skip_webm (m : Nat) (w : InlinePost)
    (hw : pyEndswith w.content ".webm" = true) (rest : List InlinePost) :
    ∀ (pre : List InlinePost) (n : Nat),
      selectedAnswers m (pre ++ w :: rest) n =
        selectedAnswers m (pre ++ rest) n := by
  intro pre
  induction pre with
  | nil => intro n; simp [selectedAnswers, hw]
  | cons p pre' ih =>
      intro n
      by_cases h1 : pyEndswith p.content ".webm" = true
      · simp only [List.cons_append, selectedAnswers, if_pos h1]
        exact ih n
      · by_cases h2 : p.cached = true
        · simp [selectedAnswers, h1, h2, ih]
        · have h2' : p.cached = false := by simpa using h2
          by_cases h3 : m ≤ n
          · simp [selectedAnswers, h1, h2', h3]
          · simp [selectedAnswers, h1, h2', h3, ih]

/-- C6 (amended): in the fan-out of an inline search page — cached and
uncached posts alike — the only per-item skipping is the preemptive
`.webm` file-extension check: removing a `.webm` post from the batch
leaves the queued answers, and the page's outcome, unchanged. When every
queued item (cached entries, plus fresh deliveries up to the fresh-media
cap) delivers, the page answers with exactly the queued items; but a
platform delivery failure of any queued item is not caught per item — it
propagates out of the single `asyncio.gather` and aborts the whole batch,
so no answers of the page are produced. -/
theorem inline_fanout_behavior (posts : List InlinePost) :
    (∀ (w : InlinePost) (pre rest : List InlinePost),
      posts = pre ++ w :: rest → pyEndswith w.content ".webm" = true →
      selectedAnswers MAX_INLINE_FRESH_MEDIA posts 0 =
        selectedAnswers MAX_INLINE_FRESH_MEDIA (pre ++ rest) 0 ∧
      inlineSearchAnswers posts = inlineSearchAnswers (pre ++ rest)) ∧
    ((∀ p ∈ selectedAnswers MAX_INLINE_FRESH_MEDIA posts 0,
        p.deliverOk = true) →
      inlineSearchAnswers posts =
        Except.ok ((selectedAnswers MAX_INLINE_FRESH_MEDIA posts 0).map
          (fun p => p.id_))) ∧
    ((∃ p ∈ selectedAnswers MAX_INLINE_FRESH_MEDIA posts 0,
        p.deliverOk = false) →
      ∀ ids, inlineSearchAnswers posts ≠ Except.ok ids) := by
  refine ⟨?_, ?_, ?_⟩
  · rintro w pre rest rfl hw
    have hsel := selectedAnswers_skip_webm MAX_INLINE_FRESH_MEDIA w hw rest pre 0
    exact ⟨hsel, by rw [inlineSearchAnswers, inlineSearchAnswers, hsel]⟩
  · intro hok
    rw [inlineSearchAnswers, gatherAnswers,
      if_pos (List.all_eq_true.mpr (fun p hp => hok p hp))]
  · rintro ⟨p, hmem, hfail⟩ ids
    rw [inlineSearchAnswers, gatherAnswers]
    rw [if_neg]
    · simp
    · intro hall
      have := List.all_eq_true.mp hall p hmem
      rw [hfail] at this
      exact absurd this (by simp)

/-- Witness for `inline_fanout_behavior`: dropping the `.webm` post of a
mixed cached/uncached batch leaves the page unchanged; an all-delivering
batch answers with its queue; and a batch whose one uncached post's fresh
delivery fails answers nothing. -/
theorem inline_fanout_behavior_witness :
    (selectedAnswers MAX_INLINE_FRESH_MEDIA
        [⟨1, "a.png", true, true⟩, ⟨2, "b.webm", false, true⟩,
         ⟨3, "c.png", true, true⟩] 0 =
      selectedAnswers MAX_INLINE_FRESH_MEDIA
        ([⟨1, "a.png", true, true⟩] ++ [⟨3, "c.png", true, true⟩]) 0 ∧
      inlineSearchAnswers
        [⟨1, "a.png", true, true⟩, ⟨2, "b.webm", false, true⟩,
         ⟨3, "c.png", true, true⟩] =
      inlineSearchAnswers
        ([⟨1, "a.png", true, true⟩] ++ [⟨3, "c.png", true, true⟩])) ∧
    inlineSearchAnswers
        [⟨1, "a.png", true, true⟩, ⟨2, "b.webm", false, true⟩,
         ⟨3, "c.png", true, true⟩] =
      Except.ok ((selectedAnswers MAX_INLINE_FRESH_MEDIA
        [⟨1, "a.png", true, true⟩, ⟨2, "b.webm", false, true⟩,
         ⟨3, "c.png", true, true⟩] 0).map (fun p => p.id_)) ∧
    inlineSearchAnswers [⟨1, "a.png", true, true⟩, ⟨2, "b.png", false, false⟩] ≠
      Except.ok [1] :=
  ⟨(inline_fanout_behavior _).1 ⟨2, "b.webm", false, true⟩
      [⟨1, "a.png", true, true⟩] [⟨3, "c.png", true, true⟩] rfl (by decide),
   (inline_fanout_behavior _).2.1 (by decide),
   (inline_fanout_behavior _).2.2
     ⟨⟨2, "b.png", false, false⟩, by decide, rfl⟩ [1]⟩

/-! ## Hidden-state codec (`src/bot/hoardbooru_bot/hidden_data.py`)

`hidden_data` url-encodes a string dict into the query of a link
`https://example.com?<params>` attached to a zero-width anchor;
`parse_hidden_data` walks the text-url entities of a message, parses each
url, skips those with the wrong domain or an empty query, and rebuilds the
dict from `parse_qs` taking the first value per key.

The percent-encoding layer of `urllib.parse` operates on UTF-8 bytes, so
here a Python string is modelled by its UTF-8 byte sequence `PyStr :=
List Nat` (each element a byte), a dict by an association list with
distinct keys in insertion order, and a message by the list of the urls of
its text-url entities. `quotePlus`/`unquotePlus`, `urlencode`,
`parseQsl`/`parseQs` and the netloc/query extraction of `urlparse` for an
`https://` url are embedded below following cpython's semantics
(`quote_via=quote_plus`, `keep_blank_values=False`,
`strict_parsing=False`, separator `&`). -/

end Hoardbooru
